import Mathlib

/-!
The program bqrekor: the Rekor-to-GCS sync run of `main.go`

A shallow embedding of the part of `func main` that follows the BigQuery
high-water-mark query and the Rekor index search (`main.go` lines 63-135):
the object name, the `resp.Payload[0:10]` slice expression, the loop over
the entry UUIDs and the deferred `w.Close()`.

* External calls whose result the program only inspects (the entry fetch,
  the write to the GCS writer, the close) are fields of `Env`, indexed by
  the loop position so that two calls need not agree.
* The four standard-library decoders used on an entry body are fields of
  `Env` as well; every theorem holds for all of them.
* `log.Fatalf` is `os.Exit(1)`: deferred calls do not run.  A run-time
  panic runs the deferred `w.Close()` and ends the process with status 2.
* `slog`/`log` output is not modelled.
-/

namespace Bqrekor

/-- A byte string (`[]byte`). -/
abbrev Bytes := List Nat

/-- The dynamic value held by `LogEntryAnon.Body` (an `interface{}`): the
nil interface, a string, or a value of another type. -/
inductive GoAny where
  | nil
  | str (s : String)
  | other
  deriving DecidableEq, Repr

/-- The fields of `models.LogEntryAnon` that `main` reads. -/
structure LogEntryAnon where
  IntegratedTime : Option Int
  LogID : Option String
  Body : GoAny
  deriving DecidableEq, Repr

/-- The zero value of `LogEntryAnon`, which indexing a Go map yields for a
key that is not present. -/
def LogEntryAnon.zero : LogEntryAnon := ⟨none, none, GoAny.nil⟩

/-- The Go map `eresp.Payload` (`map[string]LogEntryAnon`). -/
abbrev LogEntry := List (String × LogEntryAnon)

/-- Indexing of a Go map: `m[key]`. -/
def LogEntry.index (m : LogEntry) (key : String) : LogEntryAnon :=
  (m.lookup key).getD LogEntryAnon.zero

/-- A Go `[]string`: the backing array from the first element of the slice
up to its capacity, and the length of the slice. -/
structure StringSlice where
  array : List String
  len : Nat
  deriving DecidableEq, Repr

/-- Capacity `cap(s)`. -/
def StringSlice.cap (s : StringSlice) : Nat := s.array.length

/-- The elements `s[0], ..., s[len(s)-1]`. -/
def StringSlice.elems (s : StringSlice) : List String := s.array.take s.len

/-- The slice expression `s[0:hi]`: a run-time panic (`none`) when `hi`
exceeds the capacity, else the first `hi` elements of the backing array. -/
def StringSlice.slice0 (s : StringSlice) (hi : Nat) : Option (List String) :=
  if hi ≤ s.cap then some (s.array.take hi) else none

/-- What the run is given from outside, for a certificate type `Cert`
(`*x509.Certificate`). -/
structure Env (Cert : Type) where
  /-- The call `rekor.Entries.GetLogEntryByUUID` made at loop position `i`. -/
  GetLogEntryByUUID : Nat → String → Except String LogEntry
  /-- The call `base64.StdEncoding.DecodeString`. -/
  DecodeString : String → Option Bytes
  /-- The call `json.Unmarshal(b, &entry)`; on success the value of
  `entry.Spec.Signature.PublicKey.Content`. -/
  Unmarshal : Bytes → Option Bytes
  /-- The call `pem.Decode`; `none` when the returned block is nil, else
  `block.Bytes`. -/
  Decode : Bytes → Option Bytes
  /-- The call `x509.ParseCertificate`. -/
  ParseCertificate : Bytes → Option Cert
  /-- Whether `json.NewEncoder(w).Encode(cert)` at loop position `i`
  returns a nil error. -/
  Encode : Nat → Cert → Bool
  /-- Whether the deferred `w.Close()` returns a nil error. -/
  Close : Bool

/-- Observable actions of a run, in the order they happen. -/
inductive Event (Cert : Type) where
  | fetch (i : Nat) (uuid : String)
  | wrote (i : Nat) (cert : Cert)
  | writeFailed (i : Nat) (cert : Cert)
  | closed (ok : Bool)
  deriving DecidableEq, Repr

/-- How one pass through the loop body ends: the next iteration is taken
(`continue` or the end of the body), `log.Fatalf`, or a run-time panic. -/
inductive Flow where
  | next
  | fatalf
  | panic
  deriving DecidableEq, Repr

/-- How the process ends. -/
inductive Outcome where
  | done
  | fatal
  | panicked
  deriving DecidableEq, Repr

/-- Process exit status. -/
def Outcome.status : Outcome → Nat
  | Outcome.done => 0
  | Outcome.fatal => 1
  | Outcome.panicked => 2

/-- Lines 89-95: `true` when neither `continue` is taken. -/
def entryFilter (integratedTime : Option Int) (highwater : Int) : Bool :=
  match integratedTime with
  | none => false
  | some t => if t < highwater then false else true

/-- The digit loop of `%d`: the decimal digits of `u` are put in front of
`buf`, least significant first. -/
def fmtDigits : Nat → Nat → List Char → List Char
  | 0, _, buf => buf
  | fuel + 1, u, buf =>
    if 10 ≤ u then fmtDigits fuel (u / 10) (Char.ofNat (48 + u % 10) :: buf)
    else Char.ofNat (48 + u) :: buf

/-- The verb `%d` on an `int64`. -/
def fmtInt (a : Int) : List Char :=
  if a < 0 then '-' :: fmtDigits (a.natAbs + 1) a.natAbs []
  else fmtDigits (a.natAbs + 1) a.natAbs []

/-- Line 77: `fmt.Sprintf("rekor-%d.json", highwater)`. -/
def objectName (highwater : Int) : String :=
  String.mk ("rekor-".toList ++ fmtInt highwater ++ ".json".toList)

/-- Lines 81-132: the loop body at position `i` for `uuid`. -/
def iteration {Cert : Type} (env : Env Cert) (highwater : Int) (i : Nat) (uuid : String) :
    List (Event Cert) × Flow :=
  match env.GetLogEntryByUUID i uuid with
  | Except.error _ => ([Event.fetch i uuid], Flow.fatalf)
  | Except.ok payload =>
    if entryFilter (payload.index uuid).IntegratedTime highwater then
      match (payload.index uuid).Body with
      | GoAny.str s =>
        match env.DecodeString s with
        | none => ([Event.fetch i uuid], Flow.fatalf)
        | some b =>
          match env.Unmarshal b with
          | none => ([Event.fetch i uuid], Flow.fatalf)
          | some content =>
            match env.Decode content with
            | none => ([Event.fetch i uuid], Flow.next)
            | some der =>
              match env.ParseCertificate der with
              | none => ([Event.fetch i uuid], Flow.next)
              | some cert =>
                if env.Encode i cert then
                  ([Event.fetch i uuid, Event.wrote i cert], Flow.next)
                else
                  ([Event.fetch i uuid, Event.writeFailed i cert], Flow.next)
      | _ => ([Event.fetch i uuid], Flow.panic)
    else ([Event.fetch i uuid], Flow.next)

/-- Line 80: the `for ... range` over the sliced UUIDs, from position `i`. -/
def loop {Cert : Type} (env : Env Cert) (highwater : Int) :
    Nat → List String → List (Event Cert) × Flow
  | _, [] => ([], Flow.next)
  | i, uuid :: rest =>
    match iteration env highwater i uuid with
    | (evs, Flow.next) =>
      ((evs ++ (loop env highwater (i + 1) rest).1), (loop env highwater (i + 1) rest).2)
    | (evs, flow) => (evs, flow)

/-- A finished run: the object name, the actions in order, and how the
process ended. -/
structure Run (Cert : Type) where
  obj : String
  trace : List (Event Cert)
  outcome : Outcome
  deriving DecidableEq, Repr

/-- Lines 77-135 of `main`, given the high-water mark and `resp.Payload`. -/
def main {Cert : Type} (env : Env Cert) (highwater : Int) (payload : StringSlice) : Run Cert :=
  match payload.slice0 10 with
  | none => ⟨objectName highwater, [Event.closed env.Close], Outcome.panicked⟩
  | some uuids =>
    match loop env highwater 0 uuids with
    | (evs, Flow.next) =>
      ⟨objectName highwater, evs ++ [Event.closed env.Close], Outcome.done⟩
    | (evs, Flow.fatalf) => ⟨objectName highwater, evs, Outcome.fatal⟩
    | (evs, Flow.panic) =>
      ⟨objectName highwater, evs ++ [Event.closed env.Close], Outcome.panicked⟩

/-- The record an action puts in the artifact, if any. -/
def Event.record {Cert : Type} : Event Cert → Option Cert
  | Event.wrote _ c => some c
  | _ => none

/-- The loop position and UUID an action fetches, if any. -/
def Event.ref {Cert : Type} : Event Cert → Option (Nat × String)
  | Event.fetch i u => some (i, u)
  | _ => none

/-- The records that reached the artifact, in order. -/
def Run.written {Cert : Type} (r : Run Cert) : List Cert :=
  r.trace.filterMap Event.record

/-- The loop positions and UUIDs that were fetched, in order. -/
def Run.visited {Cert : Type} (r : Run Cert) : List (Nat × String) :=
  r.trace.filterMap Event.ref

/-- Whether the deferred `w.Close()` ran. -/
def Run.finalized {Cert : Type} (r : Run Cert) : Prop :=
  ∃ ok, Event.closed ok ∈ r.trace

/-! ## Definitions that follow the specification's wording -/

/-- The decimal digits of `n`, most significant first, with no leading
zero; the single digit `0` for `n = 0`. -/
def decimalDigits (n : Nat) : List Nat :=
  if n = 0 then [0] else (Nat.digits 10 n).reverse

/-- The artifact name as the interface section words it:
`rekor-<highwater>.json`. -/
def artifactName (h : Nat) : String :=
  "rekor-" ++ String.mk ((decimalDigits h).map Nat.digitChar) ++ ".json"

/-- The certificate that the entry fetched at position `i` for `uuid`
contributes to the batch: the fetch succeeds, the entry passes the filter,
and base64, record, PEM and DER decoding of its body all succeed. -/
def entryCertificate {Cert : Type} (env : Env Cert) (highwater : Int) (i : Nat)
    (uuid : String) : Option Cert :=
  match env.GetLogEntryByUUID i uuid with
  | Except.error _ => none
  | Except.ok payload =>
    if entryFilter (payload.index uuid).IntegratedTime highwater then
      match (payload.index uuid).Body with
      | GoAny.str s =>
        (env.DecodeString s).bind fun b =>
          (env.Unmarshal b).bind fun content =>
            (env.Decode content).bind env.ParseCertificate
      | _ => none
    else none

/-- The four failures of the certificate extractor, in step order. -/
inductive ExtractError where
  | BodyDecodeError
  | BodyParseError
  | PemDecodeError
  | CertificateParseError
  deriving DecidableEq, Repr

/-- The certificate extractor as the component design words it: four steps
on an entry body, each with its own failure. -/
def extractCertificate {Cert : Type} (env : Env Cert) (body : String) :
    Except ExtractError Cert :=
  match env.DecodeString body with
  | none => Except.error ExtractError.BodyDecodeError
  | some b =>
    match env.Unmarshal b with
    | none => Except.error ExtractError.BodyParseError
    | some content =>
      match env.Decode content with
      | none => Except.error ExtractError.PemDecodeError
      | some der =>
        match env.ParseCertificate der with
        | none => Except.error ExtractError.CertificateParseError
        | some cert => Except.ok cert

/-! ## A small concrete environment -/

/-- A stand-in log, UUID to entry.  Bodies use the stand-in decoders of
`demoEnv`. -/
def demoLog : List (String × LogEntryAnon) :=
  [("old", ⟨some 1, some "l", GoAny.str "\x7b-0A"⟩),
   ("null", ⟨none, some "l", GoAny.str "\x7b-0B"⟩),
   ("b64", ⟨some 9, some "l", GoAny.str "!"⟩),
   ("json", ⟨some 9, some "l", GoAny.str "x"⟩),
   ("pem", ⟨some 9, some "l", GoAny.str "\x7b"⟩),
   ("der", ⟨some 9, some "l", GoAny.str "\x7b-x"⟩),
   ("c1", ⟨some 5, some "l", GoAny.str "\x7b-0C"⟩),
   ("c2", ⟨some 7, some "l", GoAny.str "\x7b-0D"⟩)]

/-- A stand-in environment with certificates as byte strings.  A UUID that
is not in `demoLog` fails to fetch.  The body `!` is not base64; any other
body decodes to its characters.  A record must start with an opening brace,
a PEM block with a dash, a certificate with the DER sequence tag `0x30`.
Writes and the close succeed. -/
def demoEnv : Env Bytes where
  GetLogEntryByUUID := fun _ uuid =>
    match demoLog.lookup uuid with
    | some e => Except.ok [(uuid, e)]
    | none => Except.error "404"
  DecodeString := fun s => if s = "!" then none else some (s.toList.map Char.toNat)
  Unmarshal := fun b =>
    match b with
    | 123 :: rest => some rest
    | _ => none
  Decode := fun b =>
    match b with
    | 45 :: rest => some rest
    | _ => none
  ParseCertificate := fun b =>
    match b with
    | 48 :: rest => some rest
    | _ => none
  Encode := fun _ _ => true
  Close := true

/-- The environment `demoEnv` with a sink on which every write and the
close fail. -/
def brokenSinkEnv : Env Bytes :=
  { demoEnv with Encode := fun _ _ => false, Close := false }

/-- Ten refs: excluded entries, a missing PEM block, a DER failure and
three certificates. -/
def demoRefs : List String :=
  ["old", "null", "pem", "der", "c1", "c2", "c1", "old", "old", "old"]

/-- Ten refs whose third entry has a body that is not base64. -/
def badBodyRefs : List String :=
  ["old", "null", "b64", "der", "c1", "c2", "c1", "old", "old", "old"]

/-- Ten refs whose fourth UUID fails to fetch. -/
def goneRefs : List String :=
  ["c1", "old", "c2", "gone", "c1", "c2", "c1", "old", "old", "old"]

/-- Eleven refs that all fetch; only the last carries the certificate of
`c2`. -/
def elevenRefs : List String :=
  ["old", "null", "pem", "der", "c1", "c1", "c1", "old", "old", "old", "c2"]


/-! ## The loop body -/

theorem iteration_error {Cert : Type} (env : Env Cert) (h : Int) (i : Nat) (u msg : String)
    (herr : env.GetLogEntryByUUID i u = Except.error msg) :
    iteration env h i u = ([Event.fetch i u], Flow.fatalf) := by
  unfold iteration
  rw [herr]

theorem iteration_stop {Cert : Type} (env : Env Cert) (h : Int) (i : Nat) (u : String)
    (hf : (iteration env h i u).2 ≠ Flow.next) :
    (iteration env h i u).1 = [Event.fetch i u] := by
  unfold iteration at hf ⊢
  repeat' split
  all_goals first
    | rfl
    | (exfalso; revert hf; simp_all)

theorem iteration_next {Cert : Type} (env : Env Cert) (h : Int) (i : Nat) (u : String)
    (hf : (iteration env h i u).2 = Flow.next) :
    (iteration env h i u).1 = Event.fetch i u ::
      (match entryCertificate env h i u with
        | none => []
        | some c => [if env.Encode i c then Event.wrote i c else Event.writeFailed i c]) := by
  unfold iteration at hf ⊢
  unfold entryCertificate
  repeat' split
  all_goals simp_all

theorem loop_cons {Cert : Type} (env : Env Cert) (h : Int) (i : Nat) (u : String)
    (rest : List String) :
    loop env h i (u :: rest) =
      if (iteration env h i u).2 = Flow.next then
        ((iteration env h i u).1 ++ (loop env h (i + 1) rest).1, (loop env h (i + 1) rest).2)
      else iteration env h i u := by
  rw [loop]
  rcases hit : iteration env h i u with ⟨evs, f⟩
  cases f <;> simp


theorem iteration_events {Cert : Type} (env : Env Cert) (h : Int) (i : Nat) (u : String)
    (ev : Event Cert) (hev : ev ∈ (iteration env h i u).1) :
    ev = Event.fetch i u ∨ (∃ c, ev = Event.wrote i c) ∨ (∃ c, ev = Event.writeFailed i c) := by
  by_cases hf : (iteration env h i u).2 = Flow.next
  · rw [iteration_next env h i u hf] at hev
    cases hc : entryCertificate env h i u with
    | none => rw [hc] at hev; simp at hev; exact Or.inl hev
    | some c =>
      rw [hc] at hev
      by_cases hw : env.Encode i c = true
      · simp [hw] at hev
        rcases hev with hev | hev
        · exact Or.inl hev
        · exact Or.inr (Or.inl ⟨c, hev⟩)
      · simp [hw] at hev
        rcases hev with hev | hev
        · exact Or.inl hev
        · exact Or.inr (Or.inr ⟨c, hev⟩)
  · rw [iteration_stop env h i u hf] at hev
    simp at hev
    exact Or.inl hev

/-! ## The loop -/

theorem loop_events {Cert : Type} (env : Env Cert) (h : Int) (us : List String) :
    ∀ (i0 : Nat) (ev : Event Cert), ev ∈ (loop env h i0 us).1 →
      ∃ i, i0 ≤ i ∧ ((∃ u, ev = Event.fetch i u) ∨ (∃ c, ev = Event.wrote i c)
        ∨ (∃ c, ev = Event.writeFailed i c)) := by
  induction us with
  | nil => intro i0 ev hev; simp [loop] at hev
  | cons u rest ih =>
    intro i0 ev hev
    rw [loop_cons] at hev
    have hhere : ev ∈ (iteration env h i0 u).1 →
        ∃ i, i0 ≤ i ∧ ((∃ u, ev = Event.fetch i u) ∨ (∃ c, ev = Event.wrote i c)
          ∨ (∃ c, ev = Event.writeFailed i c)) := by
      intro hin
      rcases iteration_events env h i0 u ev hin with h1 | h1 | h1
      · exact ⟨i0, le_refl _, Or.inl ⟨u, h1⟩⟩
      · exact ⟨i0, le_refl _, Or.inr (Or.inl h1)⟩
      · exact ⟨i0, le_refl _, Or.inr (Or.inr h1)⟩
    by_cases hf : (iteration env h i0 u).2 = Flow.next
    · rw [if_pos hf] at hev
      rcases List.mem_append.mp hev with hin | hin
      · exact hhere hin
      · obtain ⟨i, hi, hr⟩ := ih (i0 + 1) ev hin
        exact ⟨i, by omega, hr⟩
    · rw [if_neg hf] at hev
      exact hhere hev

theorem loop_fetch_error {Cert : Type} (env : Env Cert) (h : Int) (i : Nat) (uuid msg : String)
    (herr : env.GetLogEntryByUUID i uuid = Except.error msg) (us : List String) :
    ∀ i0 : Nat, Event.fetch i uuid ∈ (loop env h i0 us).1 →
      (loop env h i0 us).2 = Flow.fatalf ∧
      ∃ pre, (loop env h i0 us).1 = pre ++ [Event.fetch i uuid] ∧ Event.fetch i uuid ∉ pre := by
  induction us with
  | nil => intro i0 hev; simp [loop] at hev
  | cons u rest ih =>
    intro i0 hev
    rw [loop_cons] at hev ⊢
    have hhere : Event.fetch i uuid ∈ (iteration env h i0 u).1 →
        iteration env h i0 u = ([Event.fetch i uuid], Flow.fatalf) := by
      intro hin
      rcases iteration_events env h i0 u _ hin with h1 | ⟨c, h1⟩ | ⟨c, h1⟩
      · injection h1 with hi hu
        subst hi hu
        exact iteration_error env h i uuid msg herr
      · cases h1
      · cases h1
    by_cases hf : (iteration env h i0 u).2 = Flow.next
    · rw [if_pos hf] at hev ⊢
      rcases List.mem_append.mp hev with hin | hin
      · rw [hhere hin] at hf
        cases hf
      · obtain ⟨hflow, pre, hpre, hnot⟩ := ih (i0 + 1) hin
        refine ⟨hflow, (iteration env h i0 u).1 ++ pre, ?_, ?_⟩
        · simp only [hpre, List.append_assoc]
        · intro hmem
          rcases List.mem_append.mp hmem with hm | hm
          · rcases iteration_events env h i0 u _ hm with h1 | ⟨c, h1⟩ | ⟨c, h1⟩
            · injection h1 with hi hu
              obtain ⟨j, hj, hr⟩ := loop_events env h rest (i0 + 1) _ hin
              rcases hr with ⟨u2, h2⟩ | ⟨c, h2⟩ | ⟨c, h2⟩
              · injection h2 with hi2 hu2
                omega
              · cases h2
              · cases h2
            · cases h1
            · cases h1
          · exact hnot hm
    · rw [if_neg hf] at hev ⊢
      rw [hhere hev]
      exact ⟨rfl, [], rfl, by simp⟩

theorem loop_done {Cert : Type} (env : Env Cert) (h : Int) (us : List String) :
    ∀ i0 : Nat, (loop env h i0 us).2 = Flow.next →
      (∀ i c, Event.writeFailed i c ∉ (loop env h i0 us).1) →
      (loop env h i0 us).1.filterMap Event.ref = us.enumFrom i0 ∧
      (loop env h i0 us).1.filterMap Event.record =
        (us.enumFrom i0).filterMap (fun p => entryCertificate env h p.1 p.2) := by
  induction us with
  | nil => intro i0 _ _; simp [loop]
  | cons u rest ih =>
    intro i0 hflow hw
    rw [loop_cons] at hflow hw ⊢
    by_cases hf : (iteration env h i0 u).2 = Flow.next
    · rw [if_pos hf] at hflow hw ⊢
      simp only at hflow hw ⊢
      obtain ⟨ih1, ih2⟩ := ih (i0 + 1) hflow
        (fun i c hm => hw i c (List.mem_append.mpr (Or.inr hm)))
      rw [List.filterMap_append, List.filterMap_append, ih1, ih2]
      have hw2 : ∀ i c, Event.writeFailed i c ∉ (iteration env h i0 u).1 :=
        fun i c hm => hw i c (List.mem_append.mpr (Or.inl hm))
      rw [iteration_next env h i0 u hf] at hw2 ⊢
      cases hc : entryCertificate env h i0 u with
      | none => simp [hc, Event.ref, Event.record, List.enumFrom]
      | some c =>
        rw [hc] at hw2
        by_cases hwr : env.Encode i0 c = true
        · simp [hc, hwr, Event.ref, Event.record, List.enumFrom]
        · exfalso
          exact hw2 i0 c (by simp [hwr])
    · rw [if_neg hf] at hflow
      exact absurd hflow hf


theorem iteration_of_certificate {Cert : Type} (env : Env Cert) (h : Int) (i : Nat)
    (u : String) (c : Cert) (hc : entryCertificate env h i u = some c) :
    iteration env h i u =
      ([Event.fetch i u, if env.Encode i c then Event.wrote i c else Event.writeFailed i c],
        Flow.next) := by
  have hf : (iteration env h i u).2 = Flow.next := by
    unfold entryCertificate at hc
    unfold iteration
    repeat' split
    all_goals simp_all
  have h1 := iteration_next env h i u hf
  rw [hc] at h1
  exact Prod.ext h1 hf

theorem iteration_of_extract_error {Cert : Type} (env : Env Cert) (h : Int) (i : Nat)
    (u s : String) (payload : LogEntry) (e : ExtractError)
    (hfetch : env.GetLogEntryByUUID i u = Except.ok payload)
    (hincl : entryFilter (payload.index u).IntegratedTime h = true)
    (hbody : (payload.index u).Body = GoAny.str s)
    (hfail : extractCertificate env s = Except.error e) :
    iteration env h i u =
      ([Event.fetch i u],
        match e with
        | ExtractError.BodyDecodeError => Flow.fatalf
        | ExtractError.BodyParseError => Flow.fatalf
        | ExtractError.PemDecodeError => Flow.next
        | ExtractError.CertificateParseError => Flow.next) := by
  unfold iteration
  unfold extractCertificate at hfail
  rw [hfetch]
  simp only [hincl, if_true, hbody]
  repeat' split at hfail
  all_goals simp_all
  all_goals (subst hfail; rfl)

/-! ## The claims -/

/-- C1: the entry filter of the sync loop includes an entry exactly when its
integrated time is present and is at least the high-water mark; an absent
integrated time is excluded at every mark, and a time equal to the mark is
included. -/
theorem entryFilter_spec (integratedTime : Option Int) (highwater : Int) :
    (entryFilter integratedTime highwater = true ↔
      ∃ t, integratedTime = some t ∧ highwater ≤ t)
    ∧ entryFilter none highwater = false
    ∧ entryFilter (some highwater) highwater = true := by
  refine ⟨?_, rfl, by simp [entryFilter]⟩
  cases integratedTime with
  | none => simp [entryFilter]
  | some t => simp [entryFilter]

/-- C9: filter monotonicity.  An entry excluded at a high-water mark `h1`
is excluded at every mark `h2` with `h1 ≤ h2`. -/
theorem entryFilter_exclusion_monotone (integratedTime : Option Int) (h1 h2 : Int)
    (hle : h1 ≤ h2) (hex : entryFilter integratedTime h1 = false) :
    entryFilter integratedTime h2 = false := by
  cases integratedTime with
  | none => rfl
  | some t =>
    simp only [entryFilter] at hex ⊢
    split at hex
    · rw [if_pos (by omega)]
    · cases hex

/-- Witness for C9: an entry integrated at 3 is excluded at mark 5 and so at
mark 9. -/
theorem entryFilter_exclusion_monotone_witness :
    (5 : Int) ≤ 9 ∧ entryFilter (some 3) 5 = false ∧ entryFilter (some 3) 9 = false :=
  ⟨by decide, by decide,
    entryFilter_exclusion_monotone (some 3) 5 9 (by decide) (by decide)⟩

/-- C10, refuted as stated: no entry is included at a mark `h2` and excluded
at a lower or equal mark `h1`. -/
theorem no_entry_included_only_at_higher_mark :
    ¬ ∃ (h1 h2 : Int) (integratedTime : Option Int),
      h1 ≤ h2 ∧ entryFilter integratedTime h2 = true ∧ entryFilter integratedTime h1 = false := by
  rintro ⟨h1, h2, t, hle, hin, hex⟩
  cases t with
  | none => simp [entryFilter] at hin
  | some t =>
    simp only [entryFilter] at hin hex
    split at hin
    · cases hin
    · rw [if_neg (by omega)] at hex
      cases hex

/-- C10 as amended: inclusion at a mark `h2` implies inclusion at every mark
`h1 ≤ h2`; it is the converse that fails, an entry can be included at `h1`
and excluded at a higher mark `h2`. -/
theorem entryFilter_inclusion_direction :
    (∀ (integratedTime : Option Int) (h1 h2 : Int), h1 ≤ h2 →
      entryFilter integratedTime h2 = true → entryFilter integratedTime h1 = true)
    ∧ ∃ (h1 h2 : Int) (integratedTime : Option Int),
      h1 ≤ h2 ∧ entryFilter integratedTime h1 = true ∧ entryFilter integratedTime h2 = false := by
  constructor
  · intro t h1 h2 hle hin
    cases t with
    | none => simp [entryFilter] at hin
    | some t =>
      simp only [entryFilter] at hin ⊢
      split at hin
      · cases hin
      · rw [if_neg (by omega)]
  · exact ⟨3, 5, some 4, by decide, by decide, by decide⟩

/-- Witness for amended C10: an entry integrated at 7 is included at mark 5
and so at mark 3. -/
theorem entryFilter_inclusion_direction_witness :
    (3 : Int) ≤ 5 ∧ entryFilter (some 7) 5 = true ∧ entryFilter (some 7) 3 = true :=
  ⟨by decide, by decide,
    entryFilter_inclusion_direction.1 (some 7) 3 5 (by decide) (by decide)⟩


/-! ## The object name -/

theorem digitChar_eq (d : Nat) (h : d < 10) : Nat.digitChar d = Char.ofNat (48 + d) := by
  interval_cases d <;> rfl

theorem fmtDigits_eq (fuel : Nat) : ∀ (u : Nat) (buf : List Char), u < fuel → 0 < u →
    fmtDigits fuel u buf = (Nat.digits 10 u).reverse.map Nat.digitChar ++ buf := by
  induction fuel with
  | zero => intro u buf h; omega
  | succ fuel ih =>
    intro u buf hlt hpos
    unfold fmtDigits
    by_cases h10 : 10 ≤ u
    · rw [if_pos h10, ih (u / 10) _ (by omega) (by omega)]
      rw [Nat.digits_def' (by norm_num) hpos]
      simp [digitChar_eq (u % 10) (Nat.mod_lt _ (by norm_num))]
    · rw [if_neg h10, Nat.digits_of_lt 10 u (by omega) (by omega)]
      simp [digitChar_eq u (by omega)]

theorem fmtInt_nonneg (n : Nat) : fmtInt (n : Int) = (decimalDigits n).map Nat.digitChar := by
  unfold fmtInt decimalDigits
  rw [if_neg (by omega)]
  simp only [Int.natAbs_ofNat]
  by_cases h0 : n = 0
  · subst h0; rfl
  · rw [if_neg h0, fmtDigits_eq _ _ _ (by omega) (by omega)]
    simp

theorem main_obj {Cert : Type} (env : Env Cert) (h : Int) (payload : StringSlice) :
    (main env h payload).obj = objectName h := by
  unfold main
  repeat' split
  all_goals rfl

/-- C7: for a non-negative high-water mark the artifact of every run is
named `rekor-`, then the decimal digits of the mark (each below ten, their
value the mark, no leading zero unless the mark is zero), then `.json`,
whatever the environment and the index result. -/
theorem objectName_spec {Cert : Type} (env : Env Cert) (payload : StringSlice)
    (highwater : Int) (h : 0 ≤ highwater) :
    (main env highwater payload).obj = artifactName highwater.toNat
    ∧ (∀ d ∈ decimalDigits highwater.toNat, d < 10)
    ∧ Nat.ofDigits 10 (decimalDigits highwater.toNat).reverse = highwater.toNat
    ∧ (highwater ≠ 0 → (decimalDigits highwater.toNat).head? ≠ some 0)
    ∧ (highwater = 0 → decimalDigits highwater.toNat = [0]) := by
  obtain ⟨n, rfl⟩ := Int.eq_ofNat_of_zero_le h
  simp only [Int.toNat_ofNat]
  refine ⟨?_, ?_, ?_, ?_, ?_⟩
  · rw [main_obj]
    unfold objectName artifactName
    rw [fmtInt_nonneg]
    simp [String.ext_iff]
  · intro d hd
    unfold decimalDigits at hd
    split at hd
    · simp at hd; omega
    · exact Nat.digits_lt_base (by norm_num) (List.mem_reverse.mp hd)
  · unfold decimalDigits
    split
    · subst_vars; rfl
    · rw [List.reverse_reverse, Nat.ofDigits_digits]
  · intro hne
    have hn : n ≠ 0 := by intro h0; exact hne (by simp [h0])
    unfold decimalDigits
    rw [if_neg hn, List.head?_reverse]
    intro hl
    have hnil : Nat.digits 10 n ≠ [] := by simpa [Nat.digits_ne_nil_iff_ne_zero] using hn
    have := Nat.getLast_digit_ne_zero 10 hn
    rw [List.getLast?_eq_getLast _ hnil] at hl
    exact this (Option.some.inj hl)
  · intro h0
    have hn : n = 0 := by exact_mod_cast h0
    simp [decimalDigits, hn]

/-- Witness for C7: the run at mark 1700000000 writes
`rekor-1700000000.json`. -/
theorem objectName_spec_witness :
    (0 : Int) ≤ 1700000000
    ∧ (main demoEnv 1700000000 ⟨demoRefs, 10⟩).obj = "rekor-1700000000.json"
    ∧ (main demoEnv 1700000000 ⟨demoRefs, 10⟩).obj = artifactName (1700000000 : Int).toNat :=
  ⟨by decide, by decide, (objectName_spec demoEnv ⟨demoRefs, 10⟩ 1700000000 (by decide)).1⟩

/-- C4, at the empty index result (length 0, capacity 0): the slice
expression `resp.Payload[0:10]` panics, so the run does not reach the loop;
the deferred close runs and the process ends with status 2. -/
theorem empty_index_panics {Cert : Type} (env : Env Cert) (highwater : Int) :
    StringSlice.elems ⟨[], 0⟩ = []
    ∧ StringSlice.slice0 ⟨[], 0⟩ 10 = none
    ∧ main env highwater ⟨[], 0⟩
        = ⟨objectName highwater, [Event.closed env.Close], Outcome.panicked⟩
    ∧ (main env highwater ⟨[], 0⟩).outcome.status = 2 := by
  refine ⟨rfl, rfl, rfl, rfl⟩

/-- C5, at an index result of eleven refs whose fetches all succeed: the run
reaches the end with ten refs visited; the eleventh, an included entry whose
certificate decodes, is never fetched and its certificate is not written. -/
theorem eleventh_ref_not_visited :
    (∀ p ∈ elevenRefs.enum, ∃ e, demoEnv.GetLogEntryByUUID p.1 p.2 = Except.ok e)
    ∧ (main demoEnv 5 ⟨elevenRefs, 11⟩).outcome = Outcome.done
    ∧ (main demoEnv 5 ⟨elevenRefs, 11⟩).visited = (elevenRefs.take 10).enum
    ∧ entryCertificate demoEnv 5 10 "c2" = some [48 + 20]
    ∧ (10, "c2") ∈ (StringSlice.elems ⟨elevenRefs, 11⟩).enum
    ∧ (10, "c2") ∉ (main demoEnv 5 ⟨elevenRefs, 11⟩).visited
    ∧ [48 + 20] ∉ (main demoEnv 5 ⟨elevenRefs, 11⟩).written := by
  refine ⟨?_, by decide, by decide, by decide, by decide, by decide, by decide⟩
  intro p hp
  have hp2 : p ∈ [(0, "old"), (1, "null"), (2, "pem"), (3, "der"), (4, "c1"), (5, "c1"),
      (6, "c1"), (7, "old"), (8, "old"), (9, "old"), (10, "c2")] := hp
  simp only [List.mem_cons, List.mem_singleton, List.not_mem_nil, or_false] at hp2
  rcases hp2 with h | h | h | h | h | h | h | h | h | h | h <;> subst h <;> exact ⟨_, rfl⟩


/-! ## The run -/

theorem main_none {Cert : Type} (env : Env Cert) (h : Int) (payload : StringSlice)
    (hs : payload.slice0 10 = none) :
    main env h payload = ⟨objectName h, [Event.closed env.Close], Outcome.panicked⟩ := by
  unfold main
  rw [hs]

theorem main_next {Cert : Type} (env : Env Cert) (h : Int) (payload : StringSlice)
    (us : List String) (hs : payload.slice0 10 = some us)
    (hl : (loop env h 0 us).2 = Flow.next) :
    main env h payload =
      ⟨objectName h, (loop env h 0 us).1 ++ [Event.closed env.Close], Outcome.done⟩ := by
  unfold main
  rw [hs]
  rcases hloop : loop env h 0 us with ⟨evs, f⟩
  rw [hloop] at hl
  simp only at hl
  subst hl
  simp [hloop]

theorem main_fatalf {Cert : Type} (env : Env Cert) (h : Int) (payload : StringSlice)
    (us : List String) (hs : payload.slice0 10 = some us)
    (hl : (loop env h 0 us).2 = Flow.fatalf) :
    main env h payload = ⟨objectName h, (loop env h 0 us).1, Outcome.fatal⟩ := by
  unfold main
  rw [hs]
  rcases hloop : loop env h 0 us with ⟨evs, f⟩
  rw [hloop] at hl
  simp only at hl
  subst hl
  simp [hloop]

theorem main_panic {Cert : Type} (env : Env Cert) (h : Int) (payload : StringSlice)
    (us : List String) (hs : payload.slice0 10 = some us)
    (hl : (loop env h 0 us).2 = Flow.panic) :
    main env h payload =
      ⟨objectName h, (loop env h 0 us).1 ++ [Event.closed env.Close], Outcome.panicked⟩ := by
  unfold main
  rw [hs]
  rcases hloop : loop env h 0 us with ⟨evs, f⟩
  rw [hloop] at hl
  simp only at hl
  subst hl
  simp [hloop]

theorem loop_not_closed {Cert : Type} (env : Env Cert) (h : Int) (us : List String)
    (i0 : Nat) (ok : Bool) : Event.closed ok ∉ (loop env h i0 us).1 := by
  intro hm
  obtain ⟨i, _, hr⟩ := loop_events env h us i0 _ hm
  rcases hr with ⟨u, h1⟩ | ⟨c, h1⟩ | ⟨c, h1⟩ <;> cases h1

/-- C3: when the entry fetch made at position `i` for `uuid` is part of the
run and returns an error, the process ends through `log.Fatalf` with status
1; that fetch is the last action of the run, so no later ref is fetched and
no further record is written, and the deferred close never runs. -/
theorem fetch_error_aborts {Cert : Type} (env : Env Cert) (highwater : Int)
    (payload : StringSlice) (i : Nat) (uuid msg : String)
    (hfetched : Event.fetch i uuid ∈ (main env highwater payload).trace)
    (herr : env.GetLogEntryByUUID i uuid = Except.error msg) :
    (main env highwater payload).outcome = Outcome.fatal
    ∧ (main env highwater payload).outcome.status = 1
    ∧ (∃ pre, (main env highwater payload).trace = pre ++ [Event.fetch i uuid]
        ∧ Event.fetch i uuid ∉ pre
        ∧ (main env highwater payload).visited = pre.filterMap Event.ref ++ [(i, uuid)]
        ∧ (main env highwater payload).written = pre.filterMap Event.record)
    ∧ ¬ (main env highwater payload).finalized := by
  cases hs : payload.slice0 10 with
  | none =>
    rw [main_none env highwater payload hs] at hfetched
    simp at hfetched
  | some us =>
    have hin : Event.fetch i uuid ∈ (loop env highwater 0 us).1 := by
      rcases hf : (loop env highwater 0 us).2 with _ | _ | _
      · rw [main_next env highwater payload us hs hf] at hfetched
        simpa using hfetched
      · rw [main_fatalf env highwater payload us hs hf] at hfetched
        exact hfetched
      · rw [main_panic env highwater payload us hs hf] at hfetched
        simpa using hfetched
    obtain ⟨hflow, pre, hpre, hnot⟩ := loop_fetch_error env highwater i uuid msg herr us 0 hin
    rw [main_fatalf env highwater payload us hs hflow]
    refine ⟨rfl, rfl, ⟨pre, hpre, hnot, ?_, ?_⟩, ?_⟩
    · simp [Run.visited, hpre, List.filterMap_append, Event.ref]
    · simp [Run.written, hpre, List.filterMap_append, Event.record]
    · rintro ⟨ok, hok⟩
      exact loop_not_closed env highwater us 0 ok hok

/-- Witness for C3: the fourth UUID of `goneRefs` fails to fetch; the run
stops there with the one record written before it. -/
theorem fetch_error_aborts_witness :
    Event.fetch 3 "gone" ∈ (main demoEnv 5 ⟨goneRefs, 10⟩).trace
    ∧ demoEnv.GetLogEntryByUUID 3 "gone" = Except.error "404"
    ∧ (main demoEnv 5 ⟨goneRefs, 10⟩).outcome = Outcome.fatal
    ∧ (main demoEnv 5 ⟨goneRefs, 10⟩).outcome.status = 1
    ∧ (∃ pre, (main demoEnv 5 ⟨goneRefs, 10⟩).trace = pre ++ [Event.fetch 3 "gone"]
        ∧ Event.fetch 3 "gone" ∉ pre
        ∧ (main demoEnv 5 ⟨goneRefs, 10⟩).visited = pre.filterMap Event.ref ++ [(3, "gone")]
        ∧ (main demoEnv 5 ⟨goneRefs, 10⟩).written = pre.filterMap Event.record)
    ∧ ¬ (main demoEnv 5 ⟨goneRefs, 10⟩).finalized :=
  ⟨by decide, rfl,
    fetch_error_aborts demoEnv 5 ⟨goneRefs, 10⟩ 3 "gone" "404" (by decide) rfl⟩

theorem iteration_of_excluded {Cert : Type} (env : Env Cert) (h : Int) (i : Nat)
    (u : String) (entry : LogEntry)
    (hfetch : env.GetLogEntryByUUID i u = Except.ok entry)
    (hex : entryFilter (entry.index u).IntegratedTime h = false) :
    iteration env h i u = ([Event.fetch i u], Flow.next) := by
  unfold iteration
  rw [hfetch]
  simp [hex]

theorem entryCertificate_of_body {Cert : Type} (env : Env Cert) (h : Int) (i : Nat)
    (u s : String) (entry : LogEntry)
    (hfetch : env.GetLogEntryByUUID i u = Except.ok entry)
    (hincl : entryFilter (entry.index u).IntegratedTime h = true)
    (hbody : (entry.index u).Body = GoAny.str s) :
    entryCertificate env h i u = (extractCertificate env s).toOption := by
  unfold entryCertificate extractCertificate
  rw [hfetch]
  simp only [hincl, if_true, hbody]
  repeat' split
  all_goals simp_all [Except.toOption]

/-- C8: in a run that ends normally with no failed write, the refs visited
are the ten of the slice, in order, the records written are, in that order,
the certificates of the visited entries that pass the filter and decode, and
the artifact is closed once, after the last entry.  Whatever the rest of the
run does, an entry excluded by the filter, or included with a missing PEM
block or a DER failure, yields no certificate and the loop goes on with the
remaining refs; an included entry whose certificate decodes and is written
adds that one record and the loop goes on. -/
theorem done_run_records {Cert : Type} (env : Env Cert) (highwater : Int) :
    (∀ payload : StringSlice,
      (main env highwater payload).outcome = Outcome.done →
      (∀ i c, Event.writeFailed i c ∉ (main env highwater payload).trace) →
      (main env highwater payload).visited = (payload.array.take 10).enum
      ∧ (main env highwater payload).written =
          (main env highwater payload).visited.filterMap
            (fun p => entryCertificate env highwater p.1 p.2)
      ∧ ∃ evs, (main env highwater payload).trace = evs ++ [Event.closed env.Close]
          ∧ ∀ ok, Event.closed ok ∉ evs)
    ∧ (∀ (i : Nat) (uuid : String) (rest : List String) (entry : LogEntry),
        env.GetLogEntryByUUID i uuid = Except.ok entry →
        entryFilter (entry.index uuid).IntegratedTime highwater = false →
        entryCertificate env highwater i uuid = none
        ∧ loop env highwater i (uuid :: rest) =
            (Event.fetch i uuid :: (loop env highwater (i + 1) rest).1,
              (loop env highwater (i + 1) rest).2))
    ∧ (∀ (i : Nat) (uuid s : String) (rest : List String) (entry : LogEntry),
        env.GetLogEntryByUUID i uuid = Except.ok entry →
        entryFilter (entry.index uuid).IntegratedTime highwater = true →
        (entry.index uuid).Body = GoAny.str s →
        (extractCertificate env s = Except.error ExtractError.PemDecodeError
          ∨ extractCertificate env s = Except.error ExtractError.CertificateParseError) →
        entryCertificate env highwater i uuid = none
        ∧ loop env highwater i (uuid :: rest) =
            (Event.fetch i uuid :: (loop env highwater (i + 1) rest).1,
              (loop env highwater (i + 1) rest).2))
    ∧ (∀ (i : Nat) (uuid s : String) (rest : List String) (entry : LogEntry) (cert : Cert),
        env.GetLogEntryByUUID i uuid = Except.ok entry →
        entryFilter (entry.index uuid).IntegratedTime highwater = true →
        (entry.index uuid).Body = GoAny.str s →
        extractCertificate env s = Except.ok cert →
        env.Encode i cert = true →
        entryCertificate env highwater i uuid = some cert
        ∧ loop env highwater i (uuid :: rest) =
            (Event.fetch i uuid :: Event.wrote i cert :: (loop env highwater (i + 1) rest).1,
              (loop env highwater (i + 1) rest).2)) := by
  refine ⟨?_, ?_, ?_, ?_⟩
  · intro payload hdone hwrites
    cases hs : payload.slice0 10 with
    | none =>
      rw [main_none env highwater payload hs] at hdone
      cases hdone
    | some us =>
      have hus : us = payload.array.take 10 := by
        unfold StringSlice.slice0 at hs
        split at hs
        · exact (Option.some.inj hs).symm
        · cases hs
      rcases hf : (loop env highwater 0 us).2 with _ | _ | _
      · rw [main_next env highwater payload us hs hf] at hwrites ⊢
        obtain ⟨h1, h2⟩ := loop_done env highwater us 0 hf
          (fun i c hm => hwrites i c (List.mem_append.mpr (Or.inl hm)))
        have hv : (Run.mk (objectName highwater)
            ((loop env highwater 0 us).1 ++ [Event.closed env.Close]) Outcome.done).visited
            = us.enum := by
          simp [Run.visited, List.filterMap_append, h1, Event.ref, List.enum]
        rw [hv]
        refine ⟨by rw [hus], ?_, ⟨(loop env highwater 0 us).1, rfl,
          fun ok => loop_not_closed env highwater us 0 ok⟩⟩
        simp [Run.written, List.filterMap_append, h2, Event.record, List.enum]
      · rw [main_fatalf env highwater payload us hs hf] at hdone
        cases hdone
      · rw [main_panic env highwater payload us hs hf] at hdone
        cases hdone
  · intro i uuid rest entry hfetch hex
    constructor
    · unfold entryCertificate
      rw [hfetch]
      simp [hex]
    · rw [loop_cons, iteration_of_excluded env highwater i uuid entry hfetch hex]
      simp
  · intro i uuid s rest entry hfetch hincl hbody hfail
    constructor
    · rw [entryCertificate_of_body env highwater i uuid s entry hfetch hincl hbody]
      rcases hfail with hfail | hfail <;> rw [hfail] <;> rfl
    · rcases hfail with hfail | hfail
      · rw [loop_cons, iteration_of_extract_error env highwater i uuid s entry _ hfetch hincl
          hbody hfail]
        simp
      · rw [loop_cons, iteration_of_extract_error env highwater i uuid s entry _ hfetch hincl
          hbody hfail]
        simp
  · intro i uuid s rest entry cert hfetch hincl hbody hok hwrite
    have hc : entryCertificate env highwater i uuid = some cert := by
      rw [entryCertificate_of_body env highwater i uuid s entry hfetch hincl hbody, hok]
      rfl
    refine ⟨hc, ?_⟩
    rw [loop_cons, iteration_of_certificate env highwater i uuid cert hc]
    simp [hwrite]

/-- Witness for C8: the run over `demoRefs` at mark 5 ends normally and
writes the three certificates, in order; the entry `c1`, integrated at 5, is
excluded at mark 6 and the loop goes on, as it does after the DER failure of
`der` and after the write of the certificate of `c2`. -/
theorem done_run_records_witness :
    (main demoEnv 5 ⟨demoRefs, 10⟩).outcome = Outcome.done
    ∧ (main demoEnv 5 ⟨demoRefs, 10⟩).written = [[67], [68], [67]]
    ∧ ((main demoEnv 5 ⟨demoRefs, 10⟩).visited = (demoRefs.take 10).enum
      ∧ (main demoEnv 5 ⟨demoRefs, 10⟩).written =
          (main demoEnv 5 ⟨demoRefs, 10⟩).visited.filterMap
            (fun p => entryCertificate demoEnv 5 p.1 p.2)
      ∧ ∃ evs, (main demoEnv 5 ⟨demoRefs, 10⟩).trace = evs ++ [Event.closed demoEnv.Close]
          ∧ ∀ ok, Event.closed ok ∉ evs)
    ∧ (entryCertificate demoEnv 6 4 "c1" = none
      ∧ loop demoEnv 6 4 ["c1", "c2"] =
          (Event.fetch 4 "c1" :: (loop demoEnv 6 5 ["c2"]).1, (loop demoEnv 6 5 ["c2"]).2))
    ∧ loop demoEnv 6 4 ["c1", "c2"] =
        ([Event.fetch 4 "c1", Event.fetch 5 "c2", Event.wrote 5 [68]], Flow.next)
    ∧ (entryCertificate demoEnv 5 3 "der" = none
      ∧ loop demoEnv 5 3 ["der", "c1"] =
          (Event.fetch 3 "der" :: (loop demoEnv 5 4 ["c1"]).1, (loop demoEnv 5 4 ["c1"]).2))
    ∧ (entryCertificate demoEnv 5 5 "c2" = some [68]
      ∧ loop demoEnv 5 5 ["c2", "old"] =
          (Event.fetch 5 "c2" :: Event.wrote 5 [68] :: (loop demoEnv 5 6 ["old"]).1,
            (loop demoEnv 5 6 ["old"]).2)) :=
  ⟨by decide, by decide,
    (done_run_records demoEnv 5).1 ⟨demoRefs, 10⟩ (by decide) (by
      intro i c hm
      have ht : (main demoEnv 5 ⟨demoRefs, 10⟩).trace =
          [Event.fetch 0 "old", Event.fetch 1 "null", Event.fetch 2 "pem",
            Event.fetch 3 "der", Event.fetch 4 "c1", Event.wrote 4 [67],
            Event.fetch 5 "c2", Event.wrote 5 [68], Event.fetch 6 "c1",
            Event.wrote 6 [67], Event.fetch 7 "old", Event.fetch 8 "old",
            Event.fetch 9 "old", Event.closed true] := by decide
      rw [ht] at hm
      simp at hm),
    (done_run_records demoEnv 6).2.1 4 "c1" ["c2"]
      [("c1", ⟨some 5, some "l", GoAny.str "\x7b-0C"⟩)] rfl (by decide),
    by decide,
    (done_run_records demoEnv 5).2.2.1 3 "der" "\x7b-x" ["c1"]
      [("der", ⟨some 9, some "l", GoAny.str "\x7b-x"⟩)] rfl (by decide) (by decide)
      (Or.inr rfl),
    (done_run_records demoEnv 5).2.2.2 5 "c2" "\x7b-0D" ["old"]
      [("c2", ⟨some 7, some "l", GoAny.str "\x7b-0D"⟩)] [68] rfl (by decide) (by decide)
      rfl rfl⟩

/-- C2, refuted as stated: the third entry of `badBodyRefs` is included and
its body is not base64; the run ends through `log.Fatalf` at that entry, and
the later entry `c1`, whose certificate decodes, is never fetched. -/
theorem malformed_body_aborts_run :
    demoEnv.GetLogEntryByUUID 2 "b64"
        = Except.ok [("b64", ⟨some 9, some "l", GoAny.str "!"⟩)]
    ∧ entryFilter (some 9) 5 = true
    ∧ extractCertificate demoEnv "!" = Except.error ExtractError.BodyDecodeError
    ∧ (main demoEnv 5 ⟨badBodyRefs, 10⟩).outcome = Outcome.fatal
    ∧ (main demoEnv 5 ⟨badBodyRefs, 10⟩).outcome.status = 1
    ∧ (main demoEnv 5 ⟨badBodyRefs, 10⟩).visited = [(0, "old"), (1, "null"), (2, "b64")]
    ∧ (main demoEnv 5 ⟨badBodyRefs, 10⟩).written = []
    ∧ entryCertificate demoEnv 5 4 "c1" = some [67] := by
  refine ⟨rfl, by decide, rfl, by decide, by decide, by decide, by decide, by decide⟩

/-- C2 as amended: for an included entry with a string body, a missing PEM
block or a DER parse failure is not fatal, the entry adds no record and the
loop goes on with the remaining refs exactly as it would without that entry;
a base64 or record-parse failure ends the run through `log.Fatalf` at that
entry. -/
theorem extraction_failure_policy {Cert : Type} (env : Env Cert) (highwater : Int)
    (i : Nat) (uuid s : String) (rest : List String) (payload : LogEntry)
    (e : ExtractError)
    (hfetch : env.GetLogEntryByUUID i uuid = Except.ok payload)
    (hincl : entryFilter (payload.index uuid).IntegratedTime highwater = true)
    (hbody : (payload.index uuid).Body = GoAny.str s)
    (hfail : extractCertificate env s = Except.error e) :
    loop env highwater i (uuid :: rest) =
      match e with
      | ExtractError.BodyDecodeError => ([Event.fetch i uuid], Flow.fatalf)
      | ExtractError.BodyParseError => ([Event.fetch i uuid], Flow.fatalf)
      | ExtractError.PemDecodeError =>
        (Event.fetch i uuid :: (loop env highwater (i + 1) rest).1,
          (loop env highwater (i + 1) rest).2)
      | ExtractError.CertificateParseError =>
        (Event.fetch i uuid :: (loop env highwater (i + 1) rest).1,
          (loop env highwater (i + 1) rest).2) := by
  rw [loop_cons, iteration_of_extract_error env highwater i uuid s payload e hfetch hincl
    hbody hfail]
  cases e <;> simp

/-- Witness for amended C2: the entry `pem` has no PEM block; the loop goes
on with the refs after it. -/
theorem extraction_failure_policy_witness :
    demoEnv.GetLogEntryByUUID 2 "pem"
        = Except.ok [("pem", ⟨some 9, some "l", GoAny.str "\x7b"⟩)]
    ∧ entryFilter (LogEntry.index [("pem", ⟨some 9, some "l", GoAny.str "\x7b"⟩)]
        "pem").IntegratedTime 5 = true
    ∧ (LogEntry.index [("pem", ⟨some 9, some "l", GoAny.str "\x7b"⟩)] "pem").Body
        = GoAny.str "\x7b"
    ∧ extractCertificate demoEnv "\x7b" = Except.error ExtractError.PemDecodeError
    ∧ loop demoEnv 5 2 ["pem", "der", "c1"] =
        (Event.fetch 2 "pem" :: (loop demoEnv 5 3 ["der", "c1"]).1,
          (loop demoEnv 5 3 ["der", "c1"]).2)
    ∧ (loop demoEnv 5 2 ["pem", "der", "c1"]).1 =
        [Event.fetch 2 "pem", Event.fetch 3 "der", Event.fetch 4 "c1", Event.wrote 4 [67]] :=
  ⟨rfl, by decide, by decide, rfl,
    extraction_failure_policy demoEnv 5 2 "pem" "\x7b" ["der", "c1"]
      [("pem", ⟨some 9, some "l", GoAny.str "\x7b"⟩)] ExtractError.PemDecodeError
      rfl (by decide) (by decide) rfl,
    by decide⟩

/-- C6, refuted as stated: on a sink where every write and the close fail,
the run over `demoRefs` visits all ten refs and ends normally with status
0. -/
theorem sink_failure_exit_zero :
    brokenSinkEnv.Encode 4 [67] = false
    ∧ brokenSinkEnv.Close = false
    ∧ Event.writeFailed 4 [67] ∈ (main brokenSinkEnv 5 ⟨demoRefs, 10⟩).trace
    ∧ Event.closed false ∈ (main brokenSinkEnv 5 ⟨demoRefs, 10⟩).trace
    ∧ (main brokenSinkEnv 5 ⟨demoRefs, 10⟩).visited = (demoRefs.take 10).enum
    ∧ (main brokenSinkEnv 5 ⟨demoRefs, 10⟩).written = []
    ∧ (main brokenSinkEnv 5 ⟨demoRefs, 10⟩).outcome = Outcome.done
    ∧ (main brokenSinkEnv 5 ⟨demoRefs, 10⟩).outcome.status = 0 := by
  refine ⟨rfl, rfl, by decide, by decide, by decide, by decide, by decide, by decide⟩

/-- C6 as amended: a failed write of a certificate record is not fatal, the
record is not added and the loop goes on with the remaining refs; and a run
whose loop reaches its end finishes normally with status 0 after the
deferred close, whatever the close returns. -/
theorem sink_failure_policy {Cert : Type} (env : Env Cert) (highwater : Int) :
    (∀ (i : Nat) (uuid : String) (rest : List String) (cert : Cert),
      entryCertificate env highwater i uuid = some cert →
      env.Encode i cert = false →
      loop env highwater i (uuid :: rest) =
        (Event.fetch i uuid :: Event.writeFailed i cert ::
            (loop env highwater (i + 1) rest).1,
          (loop env highwater (i + 1) rest).2))
    ∧ ∀ (payload : StringSlice) (us : List String), payload.slice0 10 = some us →
        (loop env highwater 0 us).2 = Flow.next →
        (main env highwater payload).outcome = Outcome.done
        ∧ (main env highwater payload).outcome.status = 0
        ∧ (main env highwater payload).trace =
            (loop env highwater 0 us).1 ++ [Event.closed env.Close] := by
  constructor
  · intro i uuid rest cert hcert hwrite
    rw [loop_cons, iteration_of_certificate env highwater i uuid cert hcert]
    simp [hwrite]
  · intro payload us hs hl
    rw [main_next env highwater payload us hs hl]
    exact ⟨rfl, rfl, rfl⟩

/-- Witness for amended C6: on the broken sink the write of the certificate
of `c1` at position 4 fails and the loop goes on; the run over `demoRefs`
ends normally although the close fails. -/
theorem sink_failure_policy_witness :
    entryCertificate brokenSinkEnv 5 4 "c1" = some [67]
    ∧ brokenSinkEnv.Encode 4 [67] = false
    ∧ loop brokenSinkEnv 5 4 ["c1", "c2"] =
        (Event.fetch 4 "c1" :: Event.writeFailed 4 [67] :: (loop brokenSinkEnv 5 5 ["c2"]).1,
          (loop brokenSinkEnv 5 5 ["c2"]).2)
    ∧ StringSlice.slice0 ⟨demoRefs, 10⟩ 10 = some demoRefs
    ∧ (loop brokenSinkEnv 5 0 demoRefs).2 = Flow.next
    ∧ brokenSinkEnv.Close = false
    ∧ ((main brokenSinkEnv 5 ⟨demoRefs, 10⟩).outcome = Outcome.done
      ∧ (main brokenSinkEnv 5 ⟨demoRefs, 10⟩).outcome.status = 0
      ∧ (main brokenSinkEnv 5 ⟨demoRefs, 10⟩).trace =
          (loop brokenSinkEnv 5 0 demoRefs).1 ++ [Event.closed brokenSinkEnv.Close]) :=
  ⟨by decide, rfl,
    (sink_failure_policy brokenSinkEnv 5).1 4 "c1" ["c2"] [67] (by decide) rfl,
    by decide, by decide, rfl,
    (sink_failure_policy brokenSinkEnv 5).2 ⟨demoRefs, 10⟩ demoRefs (by decide) (by decide)⟩

end Bqrekor
